/-
  Verification of the Infino sink pipeline
  (src/sinks/infino/sink.rs, src/sinks/infino/config.rs).

  Shallow embedding: floating-point metric values are modelled as rationals
  (the code only copies, sums and counts them), timestamps as nanosecond
  counts, and the asynchronous event stream as a finite list of events.
-/
import Mathlib

namespace Infino

/-! ## Data model -/

/-- Event/mono-clock timestamp, modelled as a count of nanoseconds. -/
structure Timestamp where
  nanos : Nat
deriving DecidableEq, Repr

/-- `timestamp().as_secs()`: whole seconds, sub-second part truncated. -/
def Timestamp.as_secs (t : Timestamp) : Nat :=
  t.nanos / 1000000000

/-- `MetricValue` variants matched in `convert_metric_to_ingest_metric`
(sink.rs lines 115-121).  A `Set` holds distinct values (a `BTreeSet` in the
host library), modelled as a `Finset`. -/
inductive MetricValue where
  | counter (value : ℚ)
  | gauge (value : ℚ)
  | histogram (samples : List ℚ)
  | set (values : Finset String)
  | distribution (samples : List ℚ)
deriving DecidableEq

/-- A metric event: name, timestamp, value, and tags.  `tags` holds the
entries of the event's tag map in iteration order, as `metric.tags().iter()`
yields them. -/
structure Metric where
  name : String
  timestamp : Timestamp
  value : MetricValue
  tags : List (String × String)
deriving DecidableEq

/-- A log event value (`Value` in the host library); `as_str` succeeds only
on the string variant. -/
inductive Value where
  | str (s : String)
  | int (n : Int)
  | float (q : ℚ)
  | bool (b : Bool)
  | null
deriving DecidableEq

/-- `Value::as_str()`: `Some` only for string values. -/
def Value.as_str : Value → Option String
  | .str s => some s
  | _ => none

/-- A log event: timestamp and fields, `fields` in the order
`log.fields().iter()` yields them. -/
structure LogEvent where
  timestamp : Timestamp
  fields : List (String × Value)
deriving DecidableEq

/-- Trace events carry an opaque payload; the sink never inspects it
(sink.rs line 97 matches `Event::Trace(_)`). -/
structure TraceEvent where
  payload : Nat
deriving DecidableEq

/-- `Event`: tagged union of metrics, logs and traces. -/
inductive Event where
  | metric (m : Metric)
  | log (l : LogEvent)
  | trace (t : TraceEvent)
deriving DecidableEq

/-! ## Ingest document types -/

/-- A single field of an ingest document (`FieldReference::new(k, v, None)`);
the third argument is always `None` at both call sites. -/
structure FieldReference where
  name : String
  value : String
  attr : Option String
deriving DecidableEq, Repr

/-- `FieldReference::new`. -/
def FieldReference.new (k v : String) (a : Option String) : FieldReference :=
  ⟨k, v, a⟩

/-- `EventReference::new_with_params`: wraps a field list. -/
structure EventReference where
  fields : List FieldReference
deriving DecidableEq, Repr

def EventReference.new_with_params (fs : List FieldReference) : EventReference :=
  ⟨fs⟩

/-- `MetricPoint { time, value }`. -/
structure MetricPoint where
  time : Nat
  value : ℚ
deriving DecidableEq

/-- `IngestMetric { metric_name, metric_point, labels }`. -/
structure IngestMetric where
  metric_name : String
  metric_point : MetricPoint
  labels : EventReference
deriving DecidableEq

/-- Write action of a document (`IndexOperation`; the spec's Document actions
are Index, Create, Update, Delete). -/
inductive IndexOperation where
  | index
  | create
  | update
  | delete
deriving DecidableEq, Repr

/-- `IngestLog { index_name, operation, time, message }`. -/
structure IngestLog where
  index_name : String
  operation : IndexOperation
  time : Nat
  message : EventReference
deriving DecidableEq

/-! ## Conversion functions (sink.rs lines 111-153) -/

/-- `convert_metric_to_ingest_metric` (sink.rs lines 111-135): reduces the
metric value to one number per variant, truncates the timestamp to seconds,
and maps each tag to a label field. -/
def convert_metric_to_ingest_metric (metric : Metric) : IngestMetric :=
  let metric_name := metric.name
  let metric_point : MetricPoint :=
    { time := metric.timestamp.as_secs
      value :=
        match metric.value with
        | .counter value => value
        | .gauge value => value
        | .histogram samples => samples.sum
        | .set values => (values.card : ℚ)
        | .distribution samples => samples.sum }
  let labels := EventReference.new_with_params
    (metric.tags.map fun kv => FieldReference.new kv.1 kv.2 none)
  { metric_name := metric_name, metric_point := metric_point, labels := labels }

/-- `convert_log_to_ingest_log` (sink.rs lines 137-153): fixed index
`"logs"`, fixed operation `Index`, seconds-truncated time, and each event
field mapped with `v.as_str().unwrap_or("")`. -/
def convert_log_to_ingest_log (log : LogEvent) : IngestLog :=
  let index_name := "logs"
  let operation := IndexOperation.index
  let time := log.timestamp.as_secs
  let message := EventReference.new_with_params
    (log.fields.map fun kv => FieldReference.new kv.1 (kv.2.as_str.getD "") none)
  { index_name := index_name, operation := operation, time := time,
    message := message }

/-! ## Destination-mode descriptor and sink configuration (config.rs) -/

/-- Optimistic-concurrency version type (config.rs / spec §3 Document). -/
inductive VersionType where
  | internal
  | external
  | externalGte
deriving DecidableEq, Repr

/-- Modelled from the spec: `DataStreamConfig` (referenced by
`common_mode` and the `parse_mode` test but declared outside src/): the
data-stream scheme's attributes from which the index is derived. -/
structure DataStreamConfig where
  dtype : String
  dataset : String
  namespc : String
deriving DecidableEq, Repr

instance : Inhabited DataStreamConfig :=
  ⟨{ dtype := "logs", dataset := "generic", namespc := "default" }⟩

/-- Modelled from the spec: `BulkConfig` (referenced by `common_mode` but
declared outside src/): fixed index and action of the bulk scheme. -/
structure BulkConfig where
  index : String
  action : String
  version : Option String
  version_type : VersionType
deriving DecidableEq, Repr

/-- `InfinoMode`: which destination scheme is configured. -/
inductive InfinoMode where
  | bulk
  | dataStream
deriving DecidableEq, Repr

/-- `InfinoCommonMode`: the resolved destination-mode descriptor produced
by `InfinoConfig::common_mode` (config.rs lines 88-100). -/
inductive InfinoCommonMode where
  | bulk (index : String) (action : String) (version : Option String)
      (version_type : VersionType)
  | dataStream (cfg : DataStreamConfig)
deriving DecidableEq, Repr

/-- Configuration errors: the only error category fatal to sink
construction (spec §7(f)). -/
inductive ConfigError where
  | endpoint (msg : String)
  | invalidBatch (msg : String)
deriving DecidableEq, Repr

/-- Modelled from the spec: batch thresholds (max events, max bytes, linger
duration) of the configuration (§6); `BatchConfig` is referenced by
config.rs but declared outside src/. -/
structure BatchConfig where
  max_events : Option Nat
  max_bytes : Option Nat
  timeout_secs : Option Nat
deriving DecidableEq, Repr

/-- Modelled from the spec: resolved batcher thresholds (§3 Batch invariant:
count/byte-size/linger bounds). -/
structure BatcherSettings where
  max_events : Nat
  max_bytes : Nat
  timeout_secs : Nat
deriving DecidableEq, Repr

/-- Modelled from the spec: `into_batcher_settings` (called at sink.rs
line 39, defined outside src/) validates the configured thresholds and
rejects an invalid combination (a zero bound) as a configuration error. -/
def BatchConfig.into_batcher_settings (b : BatchConfig) :
    Except ConfigError BatcherSettings :=
  if b.max_events = some 0 then
    .error (.invalidBatch "max_events cannot be zero")
  else if b.max_bytes = some 0 then
    .error (.invalidBatch "max_bytes cannot be zero")
  else
    .ok { max_events := b.max_events.getD 10000
          max_bytes := (b.max_bytes.getD 10000000)
          timeout_secs := b.timeout_secs.getD 1 }

/-- The encoding transformer stored on the sink (config.rs `encoding`);
its internals are irrelevant to the sink code under src/, which only
clones it. -/
structure Transformer where
  only_fields : List String
  except_fields : List String
deriving DecidableEq, Repr

instance : Inhabited Transformer := ⟨⟨[], []⟩⟩

/-- The per-endpoint request builder stored on the sink (`request_builder`,
cloned at sink.rs line 43); opaque to the code under src/. -/
structure InfinoRequestBuilder where
  endpoint : String
deriving DecidableEq, Repr

/-- `InfinoCommon`: one parsed endpoint's shared state, as used by
`InfinoSink::new` (request builder and resolved mode). -/
structure InfinoCommon where
  request_builder : InfinoRequestBuilder
  mode : InfinoCommonMode
deriving DecidableEq, Repr

/-- `InfinoConfig` (config.rs lines 44-74 plus the fields `mode`, `bulk`,
`data_stream`, `batch` its impl reads). -/
structure InfinoConfig where
  request_retry_partial : Bool
  pipeline : Option String
  encoding : Transformer
  mode : InfinoMode
  bulk : BulkConfig
  data_stream : Option DataStreamConfig
  batch : BatchConfig
deriving DecidableEq, Repr

/-- `InfinoConfig::common_mode` (config.rs lines 88-100). -/
def InfinoConfig.common_mode (c : InfinoConfig) :
    Except ConfigError InfinoCommonMode :=
  match c.mode with
  | .bulk => .ok (.bulk c.bulk.index c.bulk.action c.bulk.version
      c.bulk.version_type)
  | .dataStream => .ok (.dataStream (c.data_stream.getD default))

/-- `DataType`: the kinds of events a sink can declare as input. -/
inductive DataType where
  | metric
  | log
  | trace
deriving DecidableEq, Repr

/-- `Input`: the sink's declared input contract (the set of admitted event
kinds; `DataType::Metric | DataType::Log` is a bitflag union). -/
structure Input where
  allowed : List DataType
deriving DecidableEq, Repr

/-- `SinkConfig::input` for the Infino sink (config.rs lines 119-123):
admits metrics and logs only. -/
def InfinoConfig.input (_ : InfinoConfig) : Input :=
  { allowed := [DataType.metric, DataType.log] }

/-! ## The sink and its run loop (sink.rs lines 22-109, 155-166) -/

/-- `BulkAction`: the write action stored in a partition key; modelled by
the document write actions (spec §3: Index, Create, Update, Delete). -/
abbrev BulkAction := IndexOperation

/-- `PartitionKey` (sink.rs lines 22-26). -/
structure PartitionKey where
  index : String
  bulk_action : BulkAction
deriving DecidableEq, Repr

/-- `InfinoSink` (sink.rs lines 28-35); the generic service is external
transport state and is not part of the pure model. -/
structure InfinoSink where
  batch_settings : BatcherSettings
  request_builder : InfinoRequestBuilder
  transformer : Transformer
  mode : InfinoCommonMode
  id_key_field : Option String
deriving DecidableEq, Repr

/-- `InfinoSink::new` (sink.rs lines 38-48): fails only when
`into_batcher_settings` rejects the batch configuration.  (The source's
struct literal omits `id_key_field`; the field is modelled as absent,
i.e. `none`.) -/
def InfinoSink.new (common : InfinoCommon) (config : InfinoConfig) :
    Except ConfigError InfinoSink :=
  match config.batch.into_batcher_settings with
  | .error e => .error e
  | .ok batch_settings =>
      .ok { batch_settings := batch_settings
            request_builder := common.request_builder
            transformer := config.encoding
            mode := common.mode
            id_key_field := none }

/-- `CoreDBError`: append errors matched in `run_inner`
(sink.rs lines 78-89). -/
inductive CoreDBError where
  | tooManyAppendsError
  | unsupportedIngest (msg : String)
  | indexNotFound (msg : String)
  | other (msg : String)
deriving DecidableEq, Repr

/-- `error.to_string()` for a `CoreDBError`. -/
def CoreDBError.toString : CoreDBError → String
  | .tooManyAppendsError => "too many appends"
  | .unsupportedIngest m => m
  | .indexNotFound m => m
  | .other m => m

/-- The HTTP status codes used in `run_inner`'s error classification. -/
inductive StatusCode where
  | tooManyRequests
  | badRequest
deriving DecidableEq, Repr

/-- A diagnostic surfaced from per-event error handling in `run_inner`:
either an error response `(status, message)` or the
`error!("An unexpected error occurred.")` log line. -/
inductive Diagnostic where
  | errResponse (code : StatusCode) (msg : String)
  | unexpectedErrorLog
deriving DecidableEq, Repr

/-- Classification of a `CoreDBError` per sink.rs lines 78-89:
`TooManyAppendsError` maps to a 429 response, `UnsupportedIngest` and
`IndexNotFound` to 400, anything else to the unexpected-error log. -/
def classifyAppendError : CoreDBError → Diagnostic
  | .tooManyAppendsError =>
      .errResponse .tooManyRequests CoreDBError.tooManyAppendsError.toString
  | .unsupportedIngest m => .errResponse .badRequest m
  | .indexNotFound m => .errResponse .badRequest m
  | .other _ => .unexpectedErrorLog

/-- A document produced by the run loop's `filter_map`. -/
inductive IngestDoc where
  | metricDoc (m : IngestMetric)
  | logDoc (l : IngestLog)
deriving DecidableEq

/-- One step of `run_inner`'s `filter_map` closure (sink.rs lines 64-104):
a metric is converted and appended to coredb, with append errors handled
locally; a log is converted and appended (its result unused in the
source); a trace yields `None`.  `appendM`/`appendL` are the external
coredb append outcomes. -/
def processEvent (appendM : IngestMetric → Option CoreDBError)
    (appendL : IngestLog → Option CoreDBError) :
    Event → Option (IngestDoc × List Diagnostic)
  | .metric metric =>
      let ingest := convert_metric_to_ingest_metric metric
      let diags :=
        match appendM ingest with
        | some error => [classifyAppendError error]
        | none => []
      some (.metricDoc ingest, diags)
  | .log log =>
      let ingest := convert_log_to_ingest_log log
      let _result := appendL ingest
      some (.logDoc ingest, [])
  | .trace _ => none

/-- `run_inner` (sink.rs lines 58-109): filter-maps the input stream
through `processEvent`, drains it, and returns `Ok(())`.  The first
component is the processed stream (documents with their local
diagnostics); the second is the function's return value. -/
def run_inner (appendM : IngestMetric → Option CoreDBError)
    (appendL : IngestLog → Option CoreDBError) (input : List Event) :
    List (IngestDoc × List Diagnostic) × Except Unit Unit :=
  (input.filterMap (processEvent appendM appendL), .ok ())

/-- `StreamSink::run` (sink.rs lines 163-165): delegates to `run_inner`. -/
def run (appendM : IngestMetric → Option CoreDBError)
    (appendL : IngestLog → Option CoreDBError) (input : List Event) :
    List (IngestDoc × List Diagnostic) × Except Unit Unit :=
  run_inner appendM appendL input

/-! ## `SinkConfig::build` (config.rs lines 106-117) -/

/-- Outcome of `SinkConfig::build`: the `commons[0]` index panics when
`parse_many` resolved no endpoint; otherwise construction either fails
with a configuration error (propagated by `?`) or yields the sink. -/
inductive BuildOutcome where
  | panicked
  | configError (e : ConfigError)
  | built (s : InfinoSink)
deriving DecidableEq, Repr

/-- `SinkConfig::build` (config.rs lines 106-117).  `parsed` is the result
of the awaited `InfinoCommon::parse_many` call (external endpoint
resolution): an error propagates via `?`, then `commons[0]` takes the
first element (panicking on an empty list), and `InfinoSink::new` may
still reject the batch settings. -/
def SinkConfig.build (config : InfinoConfig)
    (parsed : Except ConfigError (List InfinoCommon)) : BuildOutcome :=
  match parsed with
  | .error e => .configError e
  | .ok commons =>
      match commons with
      | [] => .panicked
      | common :: _rest =>
          match InfinoSink.new common config with
          | .error e => .configError e
          | .ok sink => .built sink

/-- The full deployment: events are handed to the sink's run loop only
after `build` succeeds; a failed construction processes no event. -/
def deploy (config : InfinoConfig)
    (parsed : Except ConfigError (List InfinoCommon))
    (appendM : IngestMetric → Option CoreDBError)
    (appendL : IngestLog → Option CoreDBError) (events : List Event) :
    BuildOutcome × List (IngestDoc × List Diagnostic) :=
  match SinkConfig.build config parsed with
  | .built _sink => (SinkConfig.build config parsed,
      (run_inner appendM appendL events).1)
  | outcome => (outcome, [])

/-! ## Partition grouping (sink.rs lines 22-26, spec §4.2)

`run_inner` as extracted performs no batching, but the spec's Partitioner
is the pure map from a document to its `PartitionKey`; the grouping it
induces on a document list is formalised here. -/

/-- The partition key of a produced document: the log conversion's index
and operation; metrics carry no per-document index in this sink and fall
into a single default partition. -/
def partitionKeyOf : IngestDoc → PartitionKey
  | .logDoc l => { index := l.index_name, bulk_action := l.operation }
  | .metricDoc _ => { index := "default", bulk_action := .index }

/-- Stable grouping of documents by partition key: key order follows first
appearance, documents within a key keep arrival order. -/
def groupByKey (docs : List IngestDoc) :
    List (PartitionKey × List IngestDoc) :=
  docs.foldl
    (fun acc d =>
      let k := partitionKeyOf d
      if (acc.map Prod.fst).contains k then
        acc.map (fun g => if g.1 = k then (g.1, g.2 ++ [d]) else g)
      else acc ++ [(k, [d])])
    []

/-! ## Ordered field maps (spec §4.1)

Modelled from the spec: the event's tag map / field map (`MetricTags` and
the log event's field storage live outside src/).  Keys keep the position
of their first occurrence; inserting an existing key overwrites its value
in place, so a duplicated key keeps the last-seen value. -/

/-- Insert one encountered `(key, value)` pair into the ordered map:
overwrite in place when the key is present, append otherwise. -/
def insertField {α : Type} : List (String × α) → String × α →
    List (String × α)
  | [], kv => [kv]
  | p :: t, kv =>
      if p.1 = kv.1 then (p.1, kv.2) :: t else p :: insertField t kv

/-- Build the ordered field map from the pairs in encounter order. -/
def buildFields {α : Type} (l : List (String × α)) : List (String × α) :=
  l.foldl insertField []

/-- The last-seen value of a key in an encounter list. -/
def lastVal {α : Type} (k : String) : List (String × α) → Option α
  | [] => none
  | (k₂, v₂) :: t =>
      match lastVal k t with
      | some v => some v
      | none => if k = k₂ then some v₂ else none

/-- The keys of an encounter list in first-occurrence order, skipping the
keys already in `seen`. -/
def newKeys (seen : List String) : List (String × α) → List String
  | [] => []
  | (k, _) :: t =>
      if k ∈ seen then newKeys seen t else k :: newKeys (k :: seen) t

/-- Keys of an encounter list in first-occurrence order. -/
def encounterKeys (l : List (String × α)) : List String :=
  newKeys [] l

/-- Look up a field by name in a document's field list (first match). -/
def fieldLookup (k : String) : List FieldReference → Option String
  | [] => none
  | f :: t => if f.name = k then some f.value else fieldLookup k t

/-- Look up a key in an association list (first match). -/
def assocLookup {α : Type} (k : String) : List (String × α) → Option α
  | [] => none
  | (k₂, v) :: t => if k₂ = k then some v else assocLookup k t

/-- Whether an event is a trace. -/
def Event.isTrace : Event → Bool
  | .trace _ => true
  | _ => false

/-- Follows the spec's words (§4.1 metric reduction), for comparison with
`convert_metric_to_ingest_metric`: Counter and Gauge pass the raw value,
Histogram and Distribution the aggregate sum of samples, Set the
distinct-value count. -/
def specReducedValue : MetricValue → ℚ
  | .counter value => value
  | .gauge value => value
  | .histogram samples => samples.sum
  | .set values => (values.card : ℚ)
  | .distribution samples => samples.sum

/-- Follows the spec's words (§4.1 and the glossary), for comparison with
`convert_log_to_ingest_log`: the index the destination-mode descriptor
determines for a log document — the fixed configured index under the bulk
scheme, an index derived from event attributes under data-stream. -/
def specModeIndex (mode : InfinoCommonMode) (log : LogEvent) : String :=
  match mode with
  | .bulk index _ _ _ => index
  | .dataStream cfg =>
      cfg.dtype ++ "-" ++ cfg.dataset ++ "-" ++ cfg.namespc ++ "-" ++
        toString log.timestamp.as_secs

/-! ## Theorems -/

/-- C1: every metric event converts to a document carrying exactly one
numeric value, determined by the metric type as the spec's reduction says:
Counter/Gauge the raw value, Histogram/Distribution the sum of samples,
Set the distinct-value count; in particular a Histogram whose samples sum
to 42 yields the value 42. -/
theorem metric_reduction_single_value (m : Metric) :
    (convert_metric_to_ingest_metric m).metric_point.value
        = specReducedValue m.value ∧
    (∀ samples : List ℚ, m.value = .histogram samples → samples.sum = 42 →
        (convert_metric_to_ingest_metric m).metric_point.value = 42) := by
  constructor
  · cases h : m.value <;>
      simp [convert_metric_to_ingest_metric, specReducedValue, h]
  · intro samples hv hs
    simp [convert_metric_to_ingest_metric, hv, hs]

/-- Witness for C1: a concrete Histogram with samples summing to 42
converts to the value 42. -/
theorem metric_reduction_single_value_witness :
    (convert_metric_to_ingest_metric
        { name := "m", timestamp := ⟨0⟩, value := .histogram [42],
          tags := [] }).metric_point.value = 42 :=
  (metric_reduction_single_value _).2 [42] rfl (by simp)

/-- C2 counterexample: with a bulk descriptor whose configured index is
`"foo"`, the document produced for a log event does not carry the index
the descriptor determines — the conversion yields `"logs"` instead. -/
theorem log_mode_descriptor_counterexample :
    ¬ ((convert_log_to_ingest_log { timestamp := ⟨0⟩, fields := [] }).index_name
        = specModeIndex (.bulk "foo" "index" none .internal)
            { timestamp := ⟨0⟩, fields := [] }) := by
  decide

/-- C2 (amended): for every log event the produced document carries the
constant index `"logs"` and the write action `Index`, whatever
destination-mode descriptor is configured — the conversion never consults
the descriptor. -/
theorem log_index_action_fixed (log : LogEvent) (_mode : InfinoCommonMode) :
    (convert_log_to_ingest_log log).index_name = "logs" ∧
    (convert_log_to_ingest_log log).operation = .index := by
  exact ⟨rfl, rfl⟩

/-- `filterMap` ignores elements the filter already removes when the
function maps them to `none`. -/
theorem filterMap_filter_of_none {α β : Type} (f : α → Option β)
    (p : α → Bool) (h : ∀ a, p a = false → f a = none) (l : List α) :
    (l.filter p).filterMap f = l.filterMap f := by
  induction l with
  | nil => rfl
  | cons a t ih =>
      cases hp : p a with
      | false =>
          rw [List.filter_cons_of_neg (by simp [hp])]
          simp only [List.filterMap_cons, h a hp, ih]
      | true =>
          rw [List.filter_cons_of_pos (by simp [hp]), List.filterMap_cons,
            List.filterMap_cons, ih]

/-- C3: a trace event yields no document, removing the traces from the
input beforehand leaves the processed stream — hence the relative order of
the metric and log results — unchanged, and the sink's declared input
admits only metrics and logs. -/
theorem traces_filtered_order_preserved
    (appendM : IngestMetric → Option CoreDBError)
    (appendL : IngestLog → Option CoreDBError)
    (input : List Event) (t : TraceEvent) (c : InfinoConfig) :
    processEvent appendM appendL (.trace t) = none ∧
    (run_inner appendM appendL input).1 =
      (run_inner appendM appendL
        (input.filter fun e => ! e.isTrace)).1 ∧
    DataType.trace ∉ c.input.allowed := by
  refine ⟨rfl, ?_, by simp [InfinoConfig.input]⟩
  show input.filterMap _ = (input.filter _).filterMap _
  rw [filterMap_filter_of_none]
  intro a ha
  cases a with
  | metric m => simp [Event.isTrace] at ha
  | log l => simp [Event.isTrace] at ha
  | trace t₂ => rfl

/-- C5: the run loop terminates with `Ok(())` for every input stream and
every behaviour of the coredb appends — per-event errors are classified
into local diagnostics and never become the return value of
`run`/`run_inner`. -/
theorem run_always_ok
    (appendM : IngestMetric → Option CoreDBError)
    (appendL : IngestLog → Option CoreDBError) (input : List Event) :
    (run appendM appendL input).2 = .ok () ∧
    (run_inner appendM appendL input).2 = .ok () :=
  ⟨rfl, rfl⟩

/-- C7: the event-to-document transformation and the partition grouping it
induces are deterministic and side-effect free — two runs over identical
inputs produce identical processed streams and identical groupings. -/
theorem transform_grouping_deterministic
    (appendM : IngestMetric → Option CoreDBError)
    (appendL : IngestLog → Option CoreDBError)
    (events₁ events₂ : List Event) (h : events₁ = events₂) :
    (run_inner appendM appendL events₁).1 =
      (run_inner appendM appendL events₂).1 ∧
    groupByKey ((run_inner appendM appendL events₁).1.map Prod.fst) =
      groupByKey ((run_inner appendM appendL events₂).1.map Prod.fst) := by
  subst h
  exact ⟨rfl, rfl⟩

/-- Witness for C7: two runs over the same one-log input agree. -/
theorem transform_grouping_deterministic_witness :
    (run_inner (fun _ => none) (fun _ => none)
        [Event.log { timestamp := ⟨0⟩, fields := [] }]).1 =
      (run_inner (fun _ => none) (fun _ => none)
        [Event.log { timestamp := ⟨0⟩, fields := [] }]).1 ∧
    groupByKey ((run_inner (fun _ => none) (fun _ => none)
        [Event.log { timestamp := ⟨0⟩, fields := [] }]).1.map Prod.fst) =
      groupByKey ((run_inner (fun _ => none) (fun _ => none)
        [Event.log { timestamp := ⟨0⟩, fields := [] }]).1.map Prod.fst) :=
  transform_grouping_deterministic (fun _ => none) (fun _ => none)
    [Event.log { timestamp := ⟨0⟩, fields := [] }]
    [Event.log { timestamp := ⟨0⟩, fields := [] }] rfl

/-- A concrete parsed endpoint, for witnesses. -/
def sampleCommon : InfinoCommon :=
  { request_builder := { endpoint := "localhost:4000" }
    mode := .bulk "idx" "index" none .internal }

/-- A concrete valid configuration, for witnesses. -/
def sampleConfig : InfinoConfig :=
  { request_retry_partial := false
    pipeline := none
    encoding := default
    mode := .bulk
    bulk := { index := "idx", action := "index", version := none,
              version_type := .internal }
    data_stream := none
    batch := { max_events := some 10, max_bytes := some 1000,
               timeout_secs := some 1 } }

/-- A concrete configuration with an invalid batch combination. -/
def zeroBatchConfig : InfinoConfig :=
  { sampleConfig with
      batch := { max_events := some 0, max_bytes := some 1000,
                 timeout_secs := some 1 } }

/-- C10: under `parsed = ok commons`, `SinkConfig::build` panics on the
`commons[0]` index exactly when the resolved endpoint list is empty, and
otherwise depends only on the first element of the list. -/
theorem build_indexes_first_common
    (config : InfinoConfig) (parsed : Except ConfigError (List InfinoCommon))
    (commons : List InfinoCommon) (h : parsed = .ok commons) :
    (commons ≠ [] → SinkConfig.build config parsed ≠ .panicked) ∧
    (commons = [] → SinkConfig.build config parsed = .panicked) ∧
    (∀ c rest, commons = c :: rest →
        SinkConfig.build config parsed = SinkConfig.build config (.ok [c])) := by
  subst h
  refine ⟨?_, ?_, ?_⟩
  · intro hne
    cases commons with
    | nil => exact absurd rfl hne
    | cons c rest => cases hn : InfinoSink.new c config <;>
        simp [SinkConfig.build, hn]
  · intro he
    subst he
    rfl
  · intro c rest hc
    subst hc
    rfl

/-- Witness for C10: build on a one-endpoint parse result does not hit the
out-of-bounds branch. -/
theorem build_indexes_first_common_witness :
    ([sampleCommon] ≠ ([] : List InfinoCommon)) ∧
    SinkConfig.build sampleConfig (.ok [sampleCommon]) ≠ .panicked :=
  ⟨by simp,
    (build_indexes_first_common sampleConfig (.ok [sampleCommon])
        [sampleCommon] rfl).1 (by simp)⟩

/-- C6: an invalid configuration (a failed endpoint parse, or invalid batch
settings) makes `SinkConfig::build` fail with a configuration error and no
event is processed; a configuration error is the only error category
`build` surfaces, and once a sink is built its run loop never returns a
hard failure. -/
theorem config_error_fatal_at_build
    (config : InfinoConfig) (parsed : Except ConfigError (List InfinoCommon))
    (appendM : IngestMetric → Option CoreDBError)
    (appendL : IngestLog → Option CoreDBError) (events : List Event) :
    (∀ e, parsed = .error e →
        SinkConfig.build config parsed = .configError e ∧
        deploy config parsed appendM appendL events = (.configError e, [])) ∧
    (∀ e c rest, parsed = .ok (c :: rest) →
        config.batch.into_batcher_settings = .error e →
        SinkConfig.build config parsed = .configError e ∧
        (deploy config parsed appendM appendL events).2 = []) ∧
    (∀ e, SinkConfig.build config parsed = .configError e →
        parsed = .error e ∨ config.batch.into_batcher_settings = .error e) ∧
    (∀ s, SinkConfig.build config parsed = .built s →
        (run appendM appendL events).2 = .ok ()) := by
  refine ⟨?_, ?_, ?_, fun _ _ => rfl⟩
  · intro e he
    subst he
    exact ⟨rfl, rfl⟩
  · intro e c rest hp hb
    subst hp
    have hn : InfinoSink.new c config = .error e := by
      simp [InfinoSink.new, hb]
    constructor
    · simp [SinkConfig.build, hn]
    · simp [deploy, SinkConfig.build, hn]
  · intro e hbuild
    cases hp : parsed with
    | error e₂ =>
        rw [hp] at hbuild
        simp [SinkConfig.build] at hbuild
        left
        rw [hbuild]
    | ok commons =>
        cases commons with
        | nil =>
            rw [hp] at hbuild
            simp [SinkConfig.build] at hbuild
        | cons c rest =>
            rw [hp] at hbuild
            cases hset : config.batch.into_batcher_settings with
            | error es =>
                have hn : InfinoSink.new c config = .error es := by
                  simp [InfinoSink.new, hset]
                simp [SinkConfig.build, hn] at hbuild
                right
                rw [hbuild]
            | ok bs =>
                simp [SinkConfig.build, InfinoSink.new, hset] at hbuild

/-- Witness for C6: the zero-max-events configuration fails construction
with the batch-settings configuration error, processing no event. -/
theorem config_error_fatal_at_build_witness :
    SinkConfig.build zeroBatchConfig (.ok [sampleCommon])
        = .configError (.invalidBatch "max_events cannot be zero") ∧
    (deploy zeroBatchConfig (.ok [sampleCommon]) (fun _ => none)
        (fun _ => none) []).2 = [] :=
  (config_error_fatal_at_build zeroBatchConfig (.ok [sampleCommon])
      (fun _ => none) (fun _ => none) []).2.1
    (.invalidBatch "max_events cannot be zero") sampleCommon [] rfl rfl

/-- Pairing every element of a list with its image under a map. -/
theorem forall₂_map_self {α β : Type} (f : α → β) (r : α → β → Prop)
    (h : ∀ a, r a (f a)) (l : List α) : List.Forall₂ r l (l.map f) := by
  induction l with
  | nil => exact .nil
  | cons a t ih => exact .cons (h a) ih

/-- C8: log conversion is total and omits no field — the message fields
align one-to-one with the event fields, each keeping its name, with a
string value passed through and any non-string value mapped to `""`. -/
theorem log_fields_total_nonstring_empty (l : LogEvent) :
    (convert_log_to_ingest_log l).message.fields.length = l.fields.length ∧
    List.Forall₂ (fun (kv : String × Value) (f : FieldReference) =>
        f.name = kv.1 ∧ f.value = kv.2.as_str.getD "" ∧
        (kv.2.as_str = none → f.value = ""))
      l.fields (convert_log_to_ingest_log l).message.fields := by
  constructor
  · simp [convert_log_to_ingest_log, EventReference.new_with_params]
  · exact forall₂_map_self _ _
      (fun kv => ⟨rfl, rfl, fun h => by simp [FieldReference.new, h]⟩)
      l.fields

/-- Witness for C8: a concrete log with an integer-valued field and a
string-valued field. -/
theorem log_fields_total_nonstring_empty_witness :
    (convert_log_to_ingest_log
        { timestamp := ⟨0⟩, fields := [("a", .int 3), ("b", .str "x")] }
      ).message.fields.length
        = ([("a", Value.int 3), ("b", Value.str "x")] : List _).length ∧
    List.Forall₂ (fun (kv : String × Value) (f : FieldReference) =>
        f.name = kv.1 ∧ f.value = kv.2.as_str.getD "" ∧
        (kv.2.as_str = none → f.value = ""))
      [("a", .int 3), ("b", .str "x")]
      (convert_log_to_ingest_log
        { timestamp := ⟨0⟩, fields := [("a", .int 3), ("b", .str "x")] }
      ).message.fields :=
  log_fields_total_nonstring_empty
    { timestamp := ⟨0⟩, fields := [("a", .int 3), ("b", .str "x")] }

/-- C9: the converted time is the event timestamp truncated to whole
seconds, for metrics and logs alike — the sub-second part is discarded. -/
theorem time_truncated_to_seconds (m : Metric) (l : LogEvent)
    (s sub t sub₂ : Nat) (hsub : sub < 1000000000)
    (hsub₂ : sub₂ < 1000000000)
    (hm : m.timestamp.nanos = s * 1000000000 + sub)
    (hl : l.timestamp.nanos = t * 1000000000 + sub₂) :
    (convert_metric_to_ingest_metric m).metric_point.time = s ∧
    (convert_log_to_ingest_log l).time = t := by
  constructor
  · show m.timestamp.as_secs = s
    simp only [Timestamp.as_secs, hm]
    omega
  · show l.timestamp.as_secs = t
    simp only [Timestamp.as_secs, hl]
    omega

/-- Witness for C9: nanosecond timestamps 2500000007 and 1999999999
truncate to 2 and 1 seconds. -/
theorem time_truncated_to_seconds_witness :
    (convert_metric_to_ingest_metric
        { name := "m", timestamp := ⟨2500000007⟩, value := .counter 1,
          tags := [] }).metric_point.time = 2 ∧
    (convert_log_to_ingest_log
        { timestamp := ⟨1999999999⟩, fields := [] }).time = 1 :=
  time_truncated_to_seconds
    { name := "m", timestamp := ⟨2500000007⟩, value := .counter 1,
      tags := [] }
    { timestamp := ⟨1999999999⟩, fields := [] }
    2 500000007 1 999999999 (by decide) (by decide) rfl rfl

/-! ## Lemmas on the ordered field map -/

/-- The keys after inserting a pair: unchanged when the key is present,
the new key appended when absent. -/
theorem keys_insertField {α : Type} (m : List (String × α))
    (kv : String × α) :
    (insertField m kv).map Prod.fst =
      if kv.1 ∈ m.map Prod.fst then m.map Prod.fst
      else m.map Prod.fst ++ [kv.1] := by
  induction m with
  | nil => simp [insertField]
  | cons p t ih =>
      obtain ⟨a, b⟩ := p
      by_cases h : a = kv.1
      · simp [insertField, h]
      · have h2 : ¬ kv.1 = a := fun hc => h hc.symm
        by_cases hm : kv.1 ∈ t.map Prod.fst <;>
          simp [insertField, h, h2, hm, ih]

/-- Looking up after one insertion: the inserted key reads the inserted
value, any other key is untouched. -/
theorem assocLookup_insertField {α : Type} (m : List (String × α))
    (k : String) (kv : String × α) :
    assocLookup k (insertField m kv) =
      if k = kv.1 then some kv.2 else assocLookup k m := by
  obtain ⟨k₂, v₂⟩ := kv
  induction m with
  | nil =>
      by_cases h : k = k₂
      · simp [insertField, assocLookup, h]
      · have h2 : ¬ k₂ = k := fun hc => h hc.symm
        simp [insertField, assocLookup, h, h2]
  | cons p t ih =>
      obtain ⟨a, b⟩ := p
      by_cases h1 : a = k₂
      · subst h1
        by_cases h2 : a = k
        · subst h2
          simp [insertField, assocLookup]
        · have h3 : ¬ k = a := fun hc => h2 hc.symm
          simp [insertField, assocLookup, h2, h3]
      · by_cases h2 : a = k
        · subst h2
          simp [insertField, assocLookup, h1]
        · simp [insertField, assocLookup, h1, h2, ih]

/-- Folding the insertions over an accumulator: a key reads its last-seen
value from the encounter list, falling back to the accumulator. -/
theorem assocLookup_buildFields_loop {α : Type} (l : List (String × α)) :
    ∀ (acc : List (String × α)) (k : String),
      assocLookup k (l.foldl insertField acc) =
        match lastVal k l with
        | some v => some v
        | none => assocLookup k acc := by
  induction l with
  | nil => intro acc k; rfl
  | cons kv t ih =>
      intro acc k
      obtain ⟨k₂, v₂⟩ := kv
      rw [List.foldl_cons, ih]
      cases h : lastVal k t with
      | some v => simp [lastVal, h]
      | none =>
          simp only [lastVal, h]
          rw [assocLookup_insertField]
          by_cases hk : k = k₂ <;> simp [hk]

/-- A key in the built field map holds the last-seen value of the
encounter list. -/
theorem assocLookup_buildFields {α : Type} (l : List (String × α))
    (k : String) : assocLookup k (buildFields l) = lastVal k l := by
  rw [buildFields, assocLookup_buildFields_loop]
  cases h : lastVal k l <;> simp [assocLookup]

/-- `newKeys` only depends on which keys are in `seen`. -/
theorem newKeys_congr {α : Type} (l : List (String × α)) :
    ∀ s₁ s₂ : List String, (∀ x, x ∈ s₁ ↔ x ∈ s₂) →
      newKeys s₁ l = newKeys s₂ l := by
  induction l with
  | nil => intro s₁ s₂ _; rfl
  | cons kv t ih =>
      intro s₁ s₂ h
      obtain ⟨k, v⟩ := kv
      simp only [newKeys]
      by_cases hk : k ∈ s₁
      · rw [if_pos hk, if_pos ((h k).1 hk), ih s₁ s₂ h]
      · rw [if_neg hk, if_neg (fun hx => hk ((h k).2 hx)),
          ih (k :: s₁) (k :: s₂) (by intro x; simp [h x])]

/-- Folding the insertions extends the accumulator's keys by the fresh
keys of the encounter list, in first-occurrence order. -/
theorem keys_buildFields_loop {α : Type} (l : List (String × α)) :
    ∀ acc : List (String × α),
      (l.foldl insertField acc).map Prod.fst =
        acc.map Prod.fst ++ newKeys (acc.map Prod.fst) l := by
  induction l with
  | nil => intro acc; simp [newKeys]
  | cons kv t ih =>
      intro acc
      obtain ⟨k, v⟩ := kv
      rw [List.foldl_cons, ih, keys_insertField]
      by_cases hk : k ∈ acc.map Prod.fst
      · rw [if_pos hk]
        simp only [newKeys]
        rw [if_pos hk]
      · rw [if_neg hk]
        simp only [newKeys]
        rw [if_neg hk,
          newKeys_congr t (acc.map Prod.fst ++ [k]) (k :: acc.map Prod.fst)
            (by intro x; simp [or_comm])]
        simp

/-- The built field map's keys are the encounter list's keys in
first-occurrence order. -/
theorem keys_buildFields {α : Type} (l : List (String × α)) :
    (buildFields l).map Prod.fst = encounterKeys l := by
  rw [buildFields, keys_buildFields_loop]
  simp [encounterKeys]

/-- Looking up a label produced from metric tags equals the tag lookup. -/
theorem fieldLookup_map_tags (tags : List (String × String)) (k : String) :
    fieldLookup k (tags.map fun kv => FieldReference.new kv.1 kv.2 none)
      = assocLookup k tags := by
  induction tags with
  | nil => rfl
  | cons kv t ih =>
      obtain ⟨a, b⟩ := kv
      simp only [FieldReference.new] at ih ⊢
      by_cases h : a = k <;> simp [fieldLookup, assocLookup, h, ih]

/-- Looking up a message field produced from log fields equals the field
lookup pushed through `as_str().unwrap_or("")`. -/
theorem fieldLookup_map_values (fields : List (String × Value))
    (k : String) :
    fieldLookup k
        (fields.map fun kv =>
          FieldReference.new kv.1 (kv.2.as_str.getD "") none)
      = (assocLookup k fields).map (fun v => v.as_str.getD "") := by
  induction fields with
  | nil => rfl
  | cons kv t ih =>
      obtain ⟨a, b⟩ := kv
      simp only [FieldReference.new] at ih ⊢
      by_cases h : a = k <;> simp [fieldLookup, assocLookup, h, ih]

/-- C4: with the event's tag/field map built from the encountered pairs
(in-place overwrite on duplicate keys), both conversions emit fields whose
names keep the first-occurrence key order of the encounter list and whose
values are the last-seen values — for logs after
`as_str().unwrap_or("")`. -/
theorem field_order_last_value (name : String) (ts ts₂ : Timestamp)
    (mv : MetricValue) (rawTags : List (String × String))
    (rawFields : List (String × Value)) :
    ((convert_metric_to_ingest_metric
        { name := name, timestamp := ts, value := mv,
          tags := buildFields rawTags }).labels.fields.map
        FieldReference.name = encounterKeys rawTags) ∧
    (∀ k, fieldLookup k (convert_metric_to_ingest_metric
        { name := name, timestamp := ts, value := mv,
          tags := buildFields rawTags }).labels.fields
      = lastVal k rawTags) ∧
    ((convert_log_to_ingest_log
        { timestamp := ts₂, fields := buildFields rawFields }
      ).message.fields.map FieldReference.name
        = encounterKeys rawFields) ∧
    (∀ k, fieldLookup k (convert_log_to_ingest_log
        { timestamp := ts₂, fields := buildFields rawFields }
      ).message.fields
      = (lastVal k rawFields).map (fun v => v.as_str.getD "")) := by
  refine ⟨?_, ?_, ?_, ?_⟩
  · show ((buildFields rawTags).map
        (fun kv => FieldReference.new kv.1 kv.2 none)).map
        FieldReference.name = encounterKeys rawTags
    rw [List.map_map]
    exact keys_buildFields rawTags
  · intro k
    show fieldLookup k ((buildFields rawTags).map
        (fun kv => FieldReference.new kv.1 kv.2 none)) = lastVal k rawTags
    rw [fieldLookup_map_tags, assocLookup_buildFields]
  · show ((buildFields rawFields).map
        (fun kv => FieldReference.new kv.1 (kv.2.as_str.getD "") none)).map
        FieldReference.name = encounterKeys rawFields
    rw [List.map_map]
    exact keys_buildFields rawFields
  · intro k
    show fieldLookup k ((buildFields rawFields).map
        (fun kv => FieldReference.new kv.1 (kv.2.as_str.getD "") none))
      = (lastVal k rawFields).map (fun v => v.as_str.getD "")
    rw [fieldLookup_map_values, assocLookup_buildFields]

end Infino
